import Mathlib

/-!
# Verification of the RemoteRequest client (salpha-web-remote-request)

A shallow embedding of `src/remoteRequest.ts`: the token-renewal
coordination protocol (single-flight refresh gate, waiter queue,
replay/abort semantics), the encryption-gate URL classification, the
request-interceptor authorization header, and the constructor-time
validation of the encryption configuration.

Conventions of the embedding:
* JavaScript strings that may be `null`/`undefined` are `Option String`;
  JS truthiness of a string (`""` is falsy) is modelled explicitly.
* The HTTP transport (`axios`) is an oracle `ReqDescriptor → Except Err Resp`.
* Promise settlement is modelled by recording, in program order, every
  `resolve`/`reject` call as a `(waiter id, Outcome)` pair; a JS promise
  keeps only the first settlement, captured here by `firstSettle`.
* The event loop is single threaded: a stretch of code with no `await`
  runs atomically.  The synchronous prefix of `handleTokenRefresh`
  (source lines 203–247, which both test and set `isRefreshingToken`
  with no suspension in between) is therefore one atomic step,
  `handleTokenRefreshSync`.
-/

namespace RemoteRequest

/-- JS `String.prototype.includes` on character lists: `pat` occurs as a
contiguous substring of `hay` (the empty pattern always occurs). -/
def hasSub (hay pat : List Char) : Bool :=
  match hay with
  | [] => pat.isEmpty
  | _ :: t => pat.isPrefixOf hay || hasSub t pat

/-- JS `s.includes(pat)`. -/
def strIncludes (s pat : String) : Bool :=
  hasSub s.toList pat.toList

/-- An access/refresh token pair, as returned by `fetchAuthTokenMethod`
and by the reissue endpoint's response body. -/
structure TokenPair where
  accessToken : String
  refreshToken : String
deriving DecidableEq, Repr

/-- Errors flowing through the client.  `code n` stands for an arbitrary
error object (axios errors, reissue failures, ...), distinguished only by
identity; `missingContextDefault` is the `Error` the handler constructs
when a failure carries no request config and no override is configured. -/
inductive Err where
  | code (n : Nat)
  | missingContextDefault
deriving DecidableEq, Repr

/-- A transport response, distinguished only by identity. -/
abbrev Resp := Nat

/-- The replayable request descriptor (`CustomAxiosRequestConfig`):
its URL (possibly absent), the `_retry` marker, and an identity `id`
standing for the resolve/reject continuation pair attached to it once
it is queued as a waiter. -/
structure ReqDescriptor where
  id : Nat
  url : Option String
  retry : Bool
deriving DecidableEq, Repr

/-- `TokenRefreshConfig` from `src/types/token-refresh-config.ts`:
the expiry classifier, the reissue endpoint URL, and the optional
override for the missing-request-context error. -/
structure TokenRefreshConfig where
  checkTokenExpiredError : Err → Bool
  tokenReissueUrl : String
  urlRequestIsEmpty : Option Err

/-! ## Encryption configuration and its constructor-time validation -/

/-- `EncryptionConfig` shape: the marker string, and whether the two
transform hooks are present (JS can pass `undefined` despite the TS
type, which is exactly what `checkEncryptionConfigParams` tests). -/
structure EncryptionConfig where
  encryptUrlStr : String
  hasRequestInterceptor : Bool
  hasResponseInterceptor : Bool
deriving DecidableEq, Repr

/-- The distinct `throw new Error(...)` sites of
`checkEncryptionConfigParams` (source lines 473–489). -/
inductive EncryptionConfigError where
  | markerInvalid
  | missingRequestInterceptor
  | missingResponseInterceptor
deriving DecidableEq, Repr

/-- `checkEncryptionConfigParams` (source lines 473–489), transcribed
literally: the marker test is the source's
`!encryptionConfig.encryptUrlStr && encryptionConfig.encryptUrlStr.includes("/")`,
i.e. a conjunction of "the marker string is falsy (empty)" and "the
marker string contains a slash". -/
def checkEncryptionConfigParams (c : EncryptionConfig) :
    Except EncryptionConfigError Unit :=
  if c.encryptUrlStr = "" && strIncludes c.encryptUrlStr "/" then
    .error .markerInvalid
  else if !c.hasRequestInterceptor then
    .error .missingRequestInterceptor
  else if !c.hasResponseInterceptor then
    .error .missingResponseInterceptor
  else
    .ok ()

/-! ## Encryption-gate URL classification -/

/-- `checkUserIsIncludeEncryptUrl` (source lines 173–192).  Returns the
boolean classification together with whether the error-log branch was
taken (the `this._error(...)` call for a falsy URL; actual console
output is further gated by `removeConsole`, which does not affect the
returned value).  A falsy URL (`null`, `undefined`, or `""`) logs and
returns `false`; otherwise the result is
`url.includes(encryptionConfig?.encryptUrlStr ?? "")`. -/
def checkUserIsIncludeEncryptUrl (encryptionConfig : Option EncryptionConfig)
    (url : Option String) : Bool × Bool :=
  match url with
  | none => (false, true)
  | some u =>
    if u = "" then (false, true)
    else
      (strIncludes u ((encryptionConfig.map (·.encryptUrlStr)).getD ""), false)

/-! ## Request interceptor: bearer header attachment (STORAGE mode) -/

/-- The mutable header state of an outgoing request config that the
interceptor touches: its `Authorization` header, if any. -/
structure OutgoingHeaders where
  authorization : Option String
deriving DecidableEq, Repr

/-- The storage-mode branch of the request interceptor (source lines
91–98): when cookies are not used, fetch the credentials; if a token
object was returned and its `accessToken` is not the empty string, set
`Authorization` to `"Bearer " ++ accessToken`; otherwise leave the
headers untouched.  The function is total: no error path exists. -/
def setAuthorizationHeader (isUseCookie : Bool) (fetchResult : Option TokenPair)
    (headers : OutgoingHeaders) : OutgoingHeaders :=
  if isUseCookie then headers
  else
    match fetchResult with
    | none => headers
    | some t =>
      if t.accessToken ≠ "" then
        { headers with authorization := some ("Bearer " ++ t.accessToken) }
      else headers

/-! ## Refresh coordinator: state and the atomic dispatch step -/

/-- The coordinator's mutable state: the single-flight flag
`isRefreshingToken` and the waiter queue `failedQueue` (each queued
waiter is represented by its request descriptor; the descriptor's `id`
stands for the waiter's resolve/reject continuation pair). -/
structure CoordState where
  isRefreshingToken : Bool
  failedQueue : List ReqDescriptor
deriving DecidableEq, Repr

/-- A failure delivered to the response interceptor's error path:
`error.config` (possibly absent) and the error itself. -/
structure Failure where
  config : Option ReqDescriptor
  err : Err

/-- What the synchronous prefix of `handleTokenRefresh` decides to do
with a failure. -/
inductive DispatchAction where
  /-- No request descriptor: reject with the configured override or the
  default missing-context error (source lines 206–213). -/
  | rejectMissingContext (e : Err)
  /-- Not an expiry error, or already retried: reject with the original
  error unchanged (source line 341). -/
  | rejectOriginal (e : Err)
  /-- A renewal is in flight and this request is not the reissue call:
  push a waiter and suspend (source lines 233–243). -/
  | enqueue
  /-- Enter the single-flight section and start a renewal
  (source line 247). -/
  | startRenewal
deriving DecidableEq, Repr

/-- The source's `originalRequest.url?.includes(this.tokenConfig.tokenReissueUrl)`
(line 235): `false` when the URL is absent. -/
def urlIncludesReissue (cfg : TokenRefreshConfig) (url : Option String) : Bool :=
  match url with
  | none => false
  | some u => strIncludes u cfg.tokenReissueUrl

/-- The synchronous prefix of `handleTokenRefresh` (source lines
203–247): everything the handler does before its first `await`.  On the
single-threaded event loop this runs atomically; in particular the test
of `isRefreshingToken` (line 234) and its setting to `true` (line 247)
belong to the same atomic step.  Returns the action taken and the
updated coordinator state. -/
def handleTokenRefreshSync (cfg : TokenRefreshConfig) (s : CoordState)
    (failure : Failure) : DispatchAction × CoordState :=
  match failure.config with
  | none =>
    (.rejectMissingContext (cfg.urlRequestIsEmpty.getD .missingContextDefault), s)
  | some originalRequest =>
    if cfg.checkTokenExpiredError failure.err && !originalRequest.retry then
      let marked := { originalRequest with retry := true }
      if s.isRefreshingToken && !urlIncludesReissue cfg marked.url then
        (.enqueue, { s with failedQueue := s.failedQueue ++ [marked] })
      else
        (.startRenewal, { s with isRefreshingToken := true })
    else
      (.rejectOriginal failure.err, s)

/-- Process a list of failures through consecutive atomic dispatch
steps.  Because each synchronous prefix is atomic, any event-loop
interleaving of N failing requests whose dispatch steps all happen
before the first renewal completes is equivalent to some sequential
order of the steps, which this fold models. -/
def processFailures (cfg : TokenRefreshConfig) (s : CoordState)
    (fs : List Failure) : List DispatchAction × CoordState :=
  match fs with
  | [] => ([], s)
  | f :: rest =>
    let (a, s') := handleTokenRefreshSync cfg s f
    let (as, s'') := processFailures cfg s' rest
    (a :: as, s'')

/-! ## Queue drain (`processQueue`) -/

/-- A promise settlement. -/
inductive Outcome where
  | resolved (r : Resp)
  | rejected (e : Err)
deriving DecidableEq, Repr

/-- The observable effects of one `processQueue` call. -/
structure DrainResult where
  /-- Every `resolve`/`reject` invocation, as (waiter id, settlement),
  in source order of the queue. -/
  settleCalls : List (Nat × Outcome)
  /-- Descriptors replayed through the transport. -/
  replays : List ReqDescriptor
  /-- The rejection of the `Promise.all`, if any mapped callback threw
  (the first throw in queue order). -/
  thrown : Option Err
  /-- The value of `failedQueue` when the call finishes. -/
  queue : List ReqDescriptor
deriving DecidableEq, Repr

/-- The per-waiter callback of the `Promise.all` in `processQueue`
(success drain, `error = null`): a waiter whose URL *equals* the reissue
URL is discarded silently; otherwise the request is replayed, and the
waiter is resolved with the response, or the callback throws the replay
error (the waiter itself is not settled by this call).  Returns
(settle calls, replayed descriptors, thrown error). -/
def drainWaiter (cfg : TokenRefreshConfig)
    (transport : ReqDescriptor → Except Err Resp) (w : ReqDescriptor) :
    List (Nat × Outcome) × List ReqDescriptor × Option Err :=
  if w.url = some cfg.tokenReissueUrl then ([], [], none)
  else
    match transport w with
    | .ok r => ([(w.id, .resolved r)], [w], none)
    | .error e => ([], [w], some e)

/-- `processQueue(error)` (source lines 350–371).  With an error, every
waiter is rejected with it and the queue is cleared.  With no error,
every waiter's callback runs (JS `Promise.all` starts them all); if any
callback throws, the `await Promise.all` throws the first such error
and the clearing assignment `this.failedQueue = []` is skipped. -/
def processQueue (cfg : TokenRefreshConfig)
    (transport : ReqDescriptor → Except Err Resp)
    (error : Option Err) (queue : List ReqDescriptor) : DrainResult :=
  match error with
  | some e =>
    { settleCalls := queue.map fun w => (w.id, .rejected e)
      replays := []
      thrown := none
      queue := [] }
  | none =>
    let results := queue.map (drainWaiter cfg transport)
    let thrown := (results.filterMap (·.2.2)).head?
    { settleCalls := (results.map (·.1)).flatten
      replays := (results.map (·.2.1)).flatten
      thrown := thrown
      queue := if thrown.isSome then queue else [] }

/-- A settled JS promise ignores later `resolve`/`reject` calls: the
waiter with identity `i` observes the first settlement recorded for it. -/
def firstSettle (calls : List (Nat × Outcome)) (i : Nat) : Option Outcome :=
  (calls.find? fun c => c.1 = i).map (·.2)

/-! ## The renewal section of `handleTokenRefresh` -/

/-- `tokenReissueWhenUseStorage` (source lines 426–446): POST the
current access/refresh tokens to the reissue endpoint and return the
response body, parsed as a new token pair.  The `post` oracle models
the whole round trip of `this.post(url, body)`. -/
def tokenReissueWhenUseStorage
    (post : String → TokenPair → Except Err TokenPair)
    (tokenReissueUrl accessToken refreshToken : String) :
    Except Err TokenPair :=
  post tokenReissueUrl ⟨accessToken, refreshToken⟩

/-- The storage-mode arm of the renewal call (source lines 262–287):
fetch the current credentials (`fetchResult` is what
`fetchAuthTokenMethod` returned, `null` allowed), pass them (defaulting
to `""`) to the reissue endpoint, and, if the reissue succeeded and a
success callback is configured, invoke it.  Returns the reissue error,
or the argument pair the success callback was invoked with (`none` if
no callback is configured).  Note the source passes
`result?.accessToken ?? ""` / `result?.refreshToken ?? ""` — the tokens
fetched *before* the reissue — both to the endpoint and to the
callback, and discards the pair `tokenReissueWhenUseStorage` returns. -/
def storageReissueStep (cfg : TokenRefreshConfig)
    (post : String → TokenPair → Except Err TokenPair)
    (fetchResult : Option TokenPair) (hasSuccessCallback : Bool) :
    Except Err (Option TokenPair) :=
  let access := (fetchResult.map (·.accessToken)).getD ""
  let refresh := (fetchResult.map (·.refreshToken)).getD ""
  match tokenReissueWhenUseStorage post cfg.tokenReissueUrl access refresh with
  | .error e => .error e
  | .ok _newTokens =>
    .ok (if hasSuccessCallback then some ⟨access, refresh⟩ else none)

/-- Step (a) of the renewal (the `try` block up to source line 287):
cookie mode calls `tokenReissueWhenUseCookie` (the `postCookie` oracle,
whose `void` success carries no callback arguments); storage mode runs
`storageReissueStep`. -/
def reissueStepResult (cfg : TokenRefreshConfig) (isUseCookie : Bool)
    (fetchResult : Option TokenPair)
    (post : String → TokenPair → Except Err TokenPair)
    (postCookie : Except Err Unit) (hasSuccessCallback : Bool) :
    Except Err (Option TokenPair) :=
  if isUseCookie then postCookie.map (fun _ => none)
  else storageReissueStep cfg post fetchResult hasSuccessCallback

/-- The observable effects of one execution of the renewal section. -/
structure FlowResult where
  /-- POSTs made to the reissue endpoint by this renewal section. -/
  reissueCalls : Nat
  /-- Arguments the success callback received, if it was invoked. -/
  successCallbackArgs : Option TokenPair
  /-- Whether `reissueTokenFailureCallback` was invoked. -/
  failureCallbackInvoked : Bool
  /-- Settlement of the triggering request's own promise. -/
  triggerOutcome : Outcome
  /-- All waiter settle calls, in program order across both possible
  drains. -/
  settleCalls : List (Nat × Outcome)
  /-- All descriptors replayed through the transport. -/
  replays : List ReqDescriptor
  /-- `failedQueue` when the renewal section finishes. -/
  finalQueue : List ReqDescriptor
  /-- `isRefreshingToken` when the renewal section finishes (the
  `finally` clause, source line 335). -/
  finalRefreshing : Bool
deriving Repr

/-- The renewal section of `handleTokenRefresh` (source lines 249–337),
entered after `handleTokenRefreshSync` returned `startRenewal`:

* step (a): call the reissue endpoint — `tokenReissueWhenUseCookie`
  (`postCookie` oracle) in cookie mode, `storageReissueStep` otherwise;
* on success, replay `originalRequest` (line 292), then drain the queue
  with no error (line 298) and return the replayed response (line 305);
* on any throw — reissue failure, trigger-replay failure, or a success
  drain whose `Promise.all` rejected — the catch block (lines 306–333)
  drains the then-current queue with that error, invokes the failure
  callback if configured, and rejects the triggering request with it;
* the `finally` clause always clears `isRefreshingToken`.

`queueAtDrain` is the content of `failedQueue` when the draining starts:
the waiters enqueued by dispatch steps that ran while this section was
suspended at its awaits.  Requests failing after the drain has begun,
and callbacks that themselves throw, are outside the model.

In the branch where the success drain's `Promise.all` rejects,
`settleCalls` lists every success-drain settlement before the catch
drain's rejections.  The real event loop fixes no such order:
`Promise.all` rejects at the first replay failure while other replays
may still be pending, and the catch drain then rejects every
still-pending waiter, so a successful replay that settles late is
rejected rather than resolved.  The model realises one legal
interleaving; theorems about this branch must therefore rely only on
conclusions that hold under every interleaving (which waiters end
settled, the error a failed waiter receives, the trigger's outcome, the
callback, the final queue and flag), not on which settlement a
late-resolving waiter receives. -/
def runRenewal (cfg : TokenRefreshConfig) (isUseCookie : Bool)
    (fetchResult : Option TokenPair)
    (post : String → TokenPair → Except Err TokenPair)
    (postCookie : Except Err Unit)
    (hasSuccessCallback hasFailureCallback : Bool)
    (transport : ReqDescriptor → Except Err Resp)
    (originalRequest : ReqDescriptor)
    (queueAtDrain : List ReqDescriptor) : FlowResult :=
  match reissueStepResult cfg isUseCookie fetchResult post postCookie
      hasSuccessCallback with
  | .error e =>
    let d := processQueue cfg transport (some e) queueAtDrain
    { reissueCalls := 1
      successCallbackArgs := none
      failureCallbackInvoked := hasFailureCallback
      triggerOutcome := .rejected e
      settleCalls := d.settleCalls
      replays := d.replays
      finalQueue := d.queue
      finalRefreshing := false }
  | .ok cbArgs =>
    match transport originalRequest with
    | .error e =>
      let d := processQueue cfg transport (some e) queueAtDrain
      { reissueCalls := 1
        successCallbackArgs := cbArgs
        failureCallbackInvoked := hasFailureCallback
        triggerOutcome := .rejected e
        settleCalls := d.settleCalls
        replays := originalRequest :: d.replays
        finalQueue := d.queue
        finalRefreshing := false }
    | .ok r =>
      let d := processQueue cfg transport none queueAtDrain
      match d.thrown with
      | none =>
        { reissueCalls := 1
          successCallbackArgs := cbArgs
          failureCallbackInvoked := false
          triggerOutcome := .resolved r
          settleCalls := d.settleCalls
          replays := originalRequest :: d.replays
          finalQueue := d.queue
          finalRefreshing := false }
      | some f =>
        let d2 := processQueue cfg transport (some f) d.queue
        { reissueCalls := 1
          successCallbackArgs := cbArgs
          failureCallbackInvoked := hasFailureCallback
          triggerOutcome := .rejected f
          settleCalls := d.settleCalls ++ d2.settleCalls
          replays := originalRequest :: (d.replays ++ d2.replays)
          finalQueue := d2.queue
          finalRefreshing := false }

/-- A failure in the scope of the single-flight property: it is
classified auth-expired, carries a request descriptor not yet marked
retried, and its URL does not target the reissue endpoint (the renewal
call itself is exempt from queuing). -/
def eligibleNonReissue (cfg : TokenRefreshConfig) (f : Failure) : Prop :=
  ∃ d, f.config = some d ∧ cfg.checkTokenExpiredError f.err = true ∧
    d.retry = false ∧ urlIncludesReissue cfg d.url = false

/-! ## Concrete fixtures used by witnesses and counterexamples -/

/-- A concrete configuration: HTTP 401 is the expiry classification,
with the reissue endpoint of the spec's test scenario. -/
def exCfg : TokenRefreshConfig :=
  ⟨fun e => decide (e = .code 401), "https://api.example/auth/reissue", none⟩

/-- Three concurrent requests failing with the expiry error. -/
def exFailures : List Failure :=
  [⟨some ⟨0, some "/a", false⟩, .code 401⟩,
   ⟨some ⟨1, some "/b", false⟩, .code 401⟩,
   ⟨some ⟨2, some "/c", false⟩, .code 401⟩]

/-- A transport in which the replay of request 0 (the trigger) succeeds
with response 200 and every other replay fails with error 7. -/
def exTransport : ReqDescriptor → Except Err Resp :=
  fun w => if w.id = 0 then .ok 200 else .error (.code 7)

/-! ## Helper lemmas -/

theorem processFailures_enqueue (cfg : TokenRefreshConfig) (s : CoordState)
    (fs : List Failure) (h1 : s.isRefreshingToken = true)
    (hall : ∀ f ∈ fs, eligibleNonReissue cfg f) :
    (processFailures cfg s fs).1 = List.replicate fs.length .enqueue ∧
    (processFailures cfg s fs).2.isRefreshingToken = true := by
  induction fs generalizing s with
  | nil => simpa [processFailures]
  | cons f rest ih =>
    obtain ⟨d, hcfg, hexp, hretry, hurl⟩ := hall f (by simp)
    have hstep : handleTokenRefreshSync cfg s f =
        (.enqueue, { s with failedQueue := s.failedQueue ++ [{ d with retry := true }] }) := by
      simp [handleTokenRefreshSync, hcfg, hexp, hretry, h1, hurl]
    obtain ⟨ha, hb⟩ := ih { s with failedQueue := s.failedQueue ++ [{ d with retry := true }] }
      h1 (fun g hg => hall g (List.mem_cons_of_mem _ hg))
    refine ⟨?_, ?_⟩
    · simp [processFailures, hstep, List.replicate_succ, ha]
    · simp [processFailures, hstep, hb]

theorem runRenewal_reissueCalls_eq_one (cfg : TokenRefreshConfig) (isUseCookie : Bool)
    (fetch : Option TokenPair) (post : String → TokenPair → Except Err TokenPair)
    (postCookie : Except Err Unit) (hasS hasF : Bool)
    (transport : ReqDescriptor → Except Err Resp)
    (original : ReqDescriptor) (queue : List ReqDescriptor) :
    (runRenewal cfg isUseCookie fetch post postCookie hasS hasF transport original queue).reissueCalls = 1 := by
  unfold runRenewal
  split
  · rfl
  · split
    · rfl
    · cases hthrown : (processQueue cfg transport none queue).thrown <;>
        simp only [hthrown]

theorem pq_err_clears (cfg : TokenRefreshConfig) (t : ReqDescriptor → Except Err Resp)
    (e : Err) (q : List ReqDescriptor) : (processQueue cfg t (some e) q).queue = [] := by
  simp [processQueue]

theorem pq_ok_clears (cfg : TokenRefreshConfig) (t : ReqDescriptor → Except Err Resp)
    (q : List ReqDescriptor)
    (h : ∀ w ∈ q, w.url = some cfg.tokenReissueUrl ∨ ∃ r, t w = .ok r) :
    (processQueue cfg t none q).queue = [] := by
  have hnil : (q.map (drainWaiter cfg t)).filterMap (·.2.2) = [] := by
    rw [List.filterMap_eq_nil_iff]
    intro a ha
    obtain ⟨w, hw, rfl⟩ := List.mem_map.mp ha
    rcases h w hw with hurl | ⟨r, hr⟩
    · simp [drainWaiter, hurl]
    · by_cases hu : w.url = some cfg.tokenReissueUrl <;> simp [drainWaiter, hu, hr]
  simp [processQueue, hnil]

theorem runRenewal_ends_clean (cfg : TokenRefreshConfig) (isUseCookie : Bool)
    (fetch : Option TokenPair)
    (post : String → TokenPair → Except Err TokenPair) (postCookie : Except Err Unit)
    (hasS hasF : Bool) (transport : ReqDescriptor → Except Err Resp)
    (original : ReqDescriptor) (queue : List ReqDescriptor) :
    (runRenewal cfg isUseCookie fetch post postCookie hasS hasF transport original queue).finalQueue = [] ∧
    (runRenewal cfg isUseCookie fetch post postCookie hasS hasF transport original queue).finalRefreshing = false := by
  unfold runRenewal
  split
  · simp [processQueue]
  · split
    · simp [processQueue]
    · cases hthrown : (processQueue cfg transport none queue).thrown with
      | none =>
        have hq : (processQueue cfg transport none queue).queue = [] := by
          simp only [processQueue] at hthrown ⊢
          simp_all
        simp only [hthrown]
        exact ⟨hq, trivial⟩
      | some f =>
        simp only [hthrown]
        exact ⟨by simp [processQueue], trivial⟩

theorem pq_none_settleCalls_cons (cfg : TokenRefreshConfig)
    (t : ReqDescriptor → Except Err Resp) (a : ReqDescriptor) (rest : List ReqDescriptor) :
    (processQueue cfg t none (a :: rest)).settleCalls =
      (drainWaiter cfg t a).1 ++ (processQueue cfg t none rest).settleCalls := by
  simp [processQueue]

theorem pq_none_replays_cons (cfg : TokenRefreshConfig)
    (t : ReqDescriptor → Except Err Resp) (a : ReqDescriptor) (rest : List ReqDescriptor) :
    (processQueue cfg t none (a :: rest)).replays =
      (drainWaiter cfg t a).2.1 ++ (processQueue cfg t none rest).replays := by
  simp [processQueue]

theorem firstSettle_append (l1 l2 : List (Nat × Outcome)) (i : Nat) :
    firstSettle (l1 ++ l2) i = (firstSettle l1 i).or (firstSettle l2 i) := by
  unfold firstSettle
  rw [List.find?_append]
  cases h : l1.find? (fun c => c.1 = i) <;> simp

theorem firstSettle_errorDrain (cfg : TokenRefreshConfig)
    (t : ReqDescriptor → Except Err Resp) (e : Err) (q : List ReqDescriptor)
    (w : ReqDescriptor) (hw : w ∈ q) :
    firstSettle (processQueue cfg t (some e) q).settleCalls w.id =
      some (.rejected e) := by
  induction q with
  | nil => cases hw
  | cons a rest ih =>
    by_cases hid : a.id = w.id
    · simp [processQueue, firstSettle, List.find?, hid]
    · have hmem : w ∈ rest := by
        rcases List.mem_cons.mp hw with rfl | h
        · exact absurd rfl hid
        · exact h
      have := ih hmem
      simp only [processQueue, List.map_cons] at this ⊢
      simpa [firstSettle, List.find?, hid] using this

theorem firstSettle_absent (cfg : TokenRefreshConfig)
    (t : ReqDescriptor → Except Err Resp) (q : List ReqDescriptor) (i : Nat)
    (h : i ∉ q.map (·.id)) :
    firstSettle (processQueue cfg t none q).settleCalls i = none := by
  induction q with
  | nil => simp [processQueue, firstSettle]
  | cons a rest ih =>
    have hia : ¬a.id = i := by
      intro he
      exact h (by simp [he])
    have hrest : i ∉ rest.map (·.id) := fun hm => h (by simp [hm])
    rw [pq_none_settleCalls_cons, firstSettle_append, ih hrest]
    have hhead : firstSettle (drainWaiter cfg t a).1 i = none := by
      unfold drainWaiter
      by_cases hu : a.url = some cfg.tokenReissueUrl
      · simp [hu, firstSettle]
      · cases ht : t a <;> simp [hu, ht, firstSettle, List.find?, hia]
    simp [hhead]

theorem firstSettle_successDrain_own (cfg : TokenRefreshConfig)
    (t : ReqDescriptor → Except Err Resp) (q : List ReqDescriptor)
    (w : ReqDescriptor) (hmem : w ∈ q) (hnodup : (q.map (·.id)).Nodup) :
    firstSettle (processQueue cfg t none q).settleCalls w.id =
      firstSettle (drainWaiter cfg t w).1 w.id := by
  induction q with
  | nil => cases hmem
  | cons a rest ih =>
    simp only [List.map_cons, List.nodup_cons] at hnodup
    rw [pq_none_settleCalls_cons, firstSettle_append]
    rcases List.mem_cons.mp hmem with rfl | hmem2
    · rw [firstSettle_absent cfg t rest w.id hnodup.1]
      cases h : firstSettle (drainWaiter cfg t w).1 w.id <;> simp [h]
    · have hid : ¬a.id = w.id := by
        intro he
        exact hnodup.1 (he ▸ List.mem_map.mpr ⟨w, hmem2, rfl⟩)
      have hhead : firstSettle (drainWaiter cfg t a).1 w.id = none := by
        unfold drainWaiter
        by_cases hu : a.url = some cfg.tokenReissueUrl
        · simp [hu, firstSettle]
        · cases ht : t a <;> simp [hu, ht, firstSettle, List.find?, hid]
      rw [hhead, ih hmem2 hnodup.2]
      simp

theorem firstSettle_success_ok (cfg : TokenRefreshConfig)
    (t : ReqDescriptor → Except Err Resp) (q : List ReqDescriptor)
    (w : ReqDescriptor) (rw : Resp) (hmem : w ∈ q) (hnodup : (q.map (·.id)).Nodup)
    (hu : ¬w.url = some cfg.tokenReissueUrl) (ht : t w = .ok rw) :
    firstSettle (processQueue cfg t none q).settleCalls w.id =
      some (.resolved rw) := by
  rw [firstSettle_successDrain_own cfg t q w hmem hnodup]
  simp [drainWaiter, hu, ht, firstSettle, List.find?]

theorem firstSettle_success_err (cfg : TokenRefreshConfig)
    (t : ReqDescriptor → Except Err Resp) (q : List ReqDescriptor)
    (w : ReqDescriptor) (e : Err) (hmem : w ∈ q) (hnodup : (q.map (·.id)).Nodup)
    (ht : t w = .error e) :
    firstSettle (processQueue cfg t none q).settleCalls w.id = none := by
  rw [firstSettle_successDrain_own cfg t q w hmem hnodup]
  by_cases hu : w.url = some cfg.tokenReissueUrl <;>
    simp [drainWaiter, hu, ht, firstSettle]

theorem pq_thrown_some_queue (cfg : TokenRefreshConfig)
    (t : ReqDescriptor → Except Err Resp) (q : List ReqDescriptor) (f : Err)
    (h : (processQueue cfg t none q).thrown = some f) :
    (processQueue cfg t none q).queue = q := by
  simp only [processQueue] at h ⊢
  simp_all

theorem drain_discards_reissue_waiter (cfg : TokenRefreshConfig)
    (t : ReqDescriptor → Except Err Resp) (q : List ReqDescriptor) (w : ReqDescriptor)
    (hall : ∀ w' ∈ q, w'.id = w.id → w'.url = some cfg.tokenReissueUrl) :
    firstSettle (processQueue cfg t none q).settleCalls w.id = none ∧
    ∀ rr ∈ (processQueue cfg t none q).replays, rr.id ≠ w.id := by
  induction q with
  | nil => simp [processQueue, firstSettle]
  | cons a rest ih =>
    obtain ⟨ihs, ihr⟩ := ih (fun w' hw' => hall w' (List.mem_cons_of_mem _ hw'))
    rw [pq_none_settleCalls_cons, firstSettle_append, pq_none_replays_cons, ihs]
    by_cases hid : a.id = w.id
    · have hu : a.url = some cfg.tokenReissueUrl := hall a (by simp) hid
      refine ⟨by simp [drainWaiter, hu, firstSettle], ?_⟩
      intro rr hrr
      rcases List.mem_append.mp hrr with hh | hh
      · simp [drainWaiter, hu] at hh
      · exact ihr rr hh
    · have hhead : firstSettle (drainWaiter cfg t a).1 w.id = none := by
        unfold drainWaiter
        by_cases hu : a.url = some cfg.tokenReissueUrl
        · simp [hu, firstSettle]
        · cases ht : t a <;> simp [hu, ht, firstSettle, List.find?, hid]
      refine ⟨by simp [hhead], ?_⟩
      intro rr hrr
      rcases List.mem_append.mp hrr with hh | hh
      · have : rr = a := by
          unfold drainWaiter at hh
          by_cases hu : a.url = some cfg.tokenReissueUrl
          · simp [hu] at hh
          · cases ht : t a <;> simp [hu, ht] at hh <;> exact hh
        rw [this]
        exact hid
      · exact ihr rr hh

/-! ## Claim theorems -/

/-- C1: Single-flight renewal.  Starting with no renewal in flight, any
sequence of N ≥ 1 auth-expired, not-yet-retried, non-reissue-endpoint
failures whose atomic dispatch steps all run inside one renewal window
produces exactly one `startRenewal` action — the first — and N−1
`enqueue` actions; any single dispatch step that observes
`isRefreshingToken = true` enqueues a waiter, and the renewal section
entered by the one `startRenewal` makes exactly one call to the reissue
endpoint.  The check of the flag and its setting to `true` are part of
the same atomic step `handleTokenRefreshSync` (no `await` separates
source lines 234 and 247). -/
theorem single_flight_renewal (cfg : TokenRefreshConfig) (s : CoordState)
    (fs : List Failure) (h0 : s.isRefreshingToken = false) (hne : fs ≠ [])
    (hall : ∀ f ∈ fs, eligibleNonReissue cfg f) :
    (processFailures cfg s fs).1 =
      .startRenewal :: List.replicate (fs.length - 1) .enqueue ∧
    (processFailures cfg s fs).1.count .startRenewal = 1 ∧
    (processFailures cfg s fs).2.isRefreshingToken = true ∧
    (∀ (s' : CoordState) (f : Failure), s'.isRefreshingToken = true →
      eligibleNonReissue cfg f → (handleTokenRefreshSync cfg s' f).1 = .enqueue) ∧
    (∀ (isUseCookie : Bool) (fetch : Option TokenPair)
      (post : String → TokenPair → Except Err TokenPair) (postCookie : Except Err Unit)
      (hasS hasF : Bool) (transport : ReqDescriptor → Except Err Resp)
      (original : ReqDescriptor) (queue : List ReqDescriptor),
      (runRenewal cfg isUseCookie fetch post postCookie hasS hasF transport
        original queue).reissueCalls = 1) := by
  cases fs with
  | nil => exact absurd rfl hne
  | cons f rest =>
    obtain ⟨d, hcfg, hexp, hretry, hurl⟩ := hall f (by simp)
    have hstep : handleTokenRefreshSync cfg s f =
        (.startRenewal, { s with isRefreshingToken := true }) := by
      simp [handleTokenRefreshSync, hcfg, hexp, hretry, h0, hurl]
    obtain ⟨ha, hb⟩ := processFailures_enqueue cfg { s with isRefreshingToken := true }
      rest rfl (fun g hg => hall g (List.mem_cons_of_mem _ hg))
    have hacts : (processFailures cfg s (f :: rest)).1 =
        .startRenewal :: List.replicate rest.length .enqueue := by
      simp [processFailures, hstep, ha]
    refine ⟨by simpa using hacts, ?_, by simp [processFailures, hstep, hb], ?_, ?_⟩
    · rw [hacts]
      simp [List.count_cons, List.count_replicate]
    · intro s' g h1 hg
      obtain ⟨d2, hcfg2, hexp2, hretry2, hurl2⟩ := hg
      simp [handleTokenRefreshSync, hcfg2, hexp2, hretry2, h1, hurl2]
    · intro isUseCookie fetch post postCookie hasS hasF transport original queue
      exact runRenewal_reissueCalls_eq_one cfg isUseCookie fetch post postCookie
        hasS hasF transport original queue

/-- Witness for C1: the spec's scenario of three concurrent failing
requests produces one `startRenewal` followed by two `enqueue`s. -/
theorem single_flight_renewal_witness :
    (processFailures exCfg ⟨false, []⟩ exFailures).1 =
      .startRenewal :: List.replicate 2 .enqueue ∧
    (processFailures exCfg ⟨false, []⟩ exFailures).1.count .startRenewal = 1 := by
  have hall : ∀ f ∈ exFailures, eligibleNonReissue exCfg f := by
    intro f hf
    simp only [exFailures, List.mem_cons, List.not_mem_nil, or_false] at hf
    rcases hf with rfl | rfl | rfl
    · exact ⟨⟨0, some "/a", false⟩, rfl, rfl, rfl, rfl⟩
    · exact ⟨⟨1, some "/b", false⟩, rfl, rfl, rfl, rfl⟩
    · exact ⟨⟨2, some "/c", false⟩, rfl, rfl, rfl, rfl⟩
  exact ⟨(single_flight_renewal exCfg ⟨false, []⟩ exFailures rfl
      (by simp [exFailures]) hall).1,
    (single_flight_renewal exCfg ⟨false, []⟩ exFailures rfl
      (by simp [exFailures]) hall).2.1⟩

/-- C2 counterexample: renewal succeeds and the triggering request's
replay succeeds with response 200, but because the queued waiter's
replay fails (error 7), the drain's `Promise.all` rejects and the
triggering call is rejected with the waiter's replay error instead of
resolving with its own replayed response — the claim's "the triggering
call resolves with that replayed response" is false as stated. -/
theorem queue_drain_on_success_counterexample :
    (runRenewal ⟨fun _ => true, "https://api.example/auth/reissue", none⟩ false
        (some ⟨"a", "r"⟩) (fun _ _ => .ok ⟨"n", "m"⟩) (.ok ()) true true
        (fun w => if w.id = 0 then .ok 200 else .error (.code 7))
        ⟨0, some "/trigger", true⟩ [⟨1, some "/other", true⟩]).triggerOutcome =
      .rejected (.code 7) ∧
    ¬(runRenewal ⟨fun _ => true, "https://api.example/auth/reissue", none⟩ false
        (some ⟨"a", "r"⟩) (fun _ _ => .ok ⟨"n", "m"⟩) (.ok ()) true true
        (fun w => if w.id = 0 then .ok 200 else .error (.code 7))
        ⟨0, some "/trigger", true⟩ [⟨1, some "/other", true⟩]).triggerOutcome =
      .resolved 200 := by
  constructor
  · rfl
  · decide

/-- C2 (amended): if the renewal succeeds and the triggering replay
succeeds, the trigger's descriptor is replayed first.  When every
queued (non-reissue-endpoint) waiter's replay succeeds, the triggering
call resolves with its replayed response, every waiter resolves with
its own replayed response, and the failure callback is not invoked.
When some waiter's replay fails, the drain's `Promise.all` rejects with
a replay failure `f` and the catch path runs: the triggering call is
rejected with `f` (it does not resolve), the renewal-failed callback is
invoked if configured, every waiter whose replay failed is rejected
with `f`, and no waiter is left pending — a waiter whose replay
succeeded is settled either with its own response or with a rejection
carrying `f`, depending on whether its replay settled before the catch
drain rejected the still-pending waiters (the disjunction is what the
program guarantees under every interleaving; the model realises the
first disjunct). -/
theorem queue_drain_on_success_amended (cfg : TokenRefreshConfig) (isUseCookie : Bool)
    (fetch : Option TokenPair) (post : String → TokenPair → Except Err TokenPair)
    (postCookie : Except Err Unit) (hasS hasF : Bool)
    (transport : ReqDescriptor → Except Err Resp)
    (original : ReqDescriptor) (queue : List ReqDescriptor)
    (tp : Option TokenPair) (r : Resp)
    (hA : reissueStepResult cfg isUseCookie fetch post postCookie hasS = .ok tp)
    (hT : transport original = .ok r)
    (hurl : ∀ w ∈ queue, ¬w.url = some cfg.tokenReissueUrl)
    (hids : (queue.map (·.id)).Nodup) :
    (runRenewal cfg isUseCookie fetch post postCookie hasS hasF transport original queue).replays.head? = some original ∧
    ((processQueue cfg transport none queue).thrown = none →
      (runRenewal cfg isUseCookie fetch post postCookie hasS hasF transport original queue).triggerOutcome = .resolved r ∧
      (runRenewal cfg isUseCookie fetch post postCookie hasS hasF transport original queue).failureCallbackInvoked = false ∧
      ∀ w ∈ queue, ∀ rw, transport w = .ok rw →
        firstSettle (runRenewal cfg isUseCookie fetch post postCookie hasS hasF transport original queue).settleCalls w.id =
          some (.resolved rw)) ∧
    (∀ f, (processQueue cfg transport none queue).thrown = some f →
      (runRenewal cfg isUseCookie fetch post postCookie hasS hasF transport original queue).triggerOutcome = .rejected f ∧
      (runRenewal cfg isUseCookie fetch post postCookie hasS hasF transport original queue).failureCallbackInvoked = hasF ∧
      (∀ w ∈ queue, ∀ e, transport w = .error e →
        firstSettle (runRenewal cfg isUseCookie fetch post postCookie hasS hasF transport original queue).settleCalls w.id =
          some (.rejected f)) ∧
      (∀ w ∈ queue, ∀ rw, transport w = .ok rw →
        firstSettle (runRenewal cfg isUseCookie fetch post postCookie hasS hasF transport original queue).settleCalls w.id =
          some (.resolved rw) ∨
        firstSettle (runRenewal cfg isUseCookie fetch post postCookie hasS hasF transport original queue).settleCalls w.id =
          some (.rejected f))) := by
  refine ⟨?_, ?_, ?_⟩
  · cases hthrown : (processQueue cfg transport none queue).thrown <;>
      simp [runRenewal, hA, hT, hthrown]
  · intro hthrown
    have hsc : (runRenewal cfg isUseCookie fetch post postCookie hasS hasF transport original queue).settleCalls =
        (processQueue cfg transport none queue).settleCalls := by
      simp only [runRenewal, hA, hT, hthrown]
    refine ⟨by simp only [runRenewal, hA, hT, hthrown],
      by simp only [runRenewal, hA, hT, hthrown], ?_⟩
    intro w hw rw2 hok
    rw [hsc]
    exact firstSettle_success_ok cfg transport queue w rw2 hw hids (hurl w hw) hok
  · intro f hthrown
    have hq : (processQueue cfg transport none queue).queue = queue :=
      pq_thrown_some_queue cfg transport queue f hthrown
    have hsc : (runRenewal cfg isUseCookie fetch post postCookie hasS hasF transport original queue).settleCalls =
        (processQueue cfg transport none queue).settleCalls ++
          (processQueue cfg transport (some f) (processQueue cfg transport none queue).queue).settleCalls := by
      simp only [runRenewal, hA, hT, hthrown]
    refine ⟨by simp only [runRenewal, hA, hT, hthrown],
      by simp only [runRenewal, hA, hT, hthrown], ?_, ?_⟩
    · intro w hw e herr
      rw [hsc, firstSettle_append,
        firstSettle_success_err cfg transport queue w e hw hids herr, hq]
      simpa using firstSettle_errorDrain cfg transport f queue w hw
    · intro w hw rw2 hok
      left
      rw [hsc, firstSettle_append,
        firstSettle_success_ok cfg transport queue w rw2 hw hids (hurl w hw) hok]
      rfl

/-- Witness for amended C2: in the mixed scenario (trigger replay
succeeds, the sole waiter's replay fails with error 7) the waiter is
rejected with error 7 and the triggering call is rejected with it
too. -/
theorem queue_drain_on_success_amended_witness :
    firstSettle (runRenewal exCfg false (some ⟨"a", "r"⟩) (fun _ _ => .ok ⟨"n", "m"⟩)
      (.ok ()) true true exTransport ⟨0, some "/trigger", true⟩
      [⟨1, some "/other", true⟩]).settleCalls 1 = some (.rejected (.code 7)) ∧
    (runRenewal exCfg false (some ⟨"a", "r"⟩) (fun _ _ => .ok ⟨"n", "m"⟩)
      (.ok ()) true true exTransport ⟨0, some "/trigger", true⟩
      [⟨1, some "/other", true⟩]).triggerOutcome = .rejected (.code 7) := by
  have hurl : ∀ w ∈ [(⟨1, some "/other", true⟩ : ReqDescriptor)],
      ¬w.url = some exCfg.tokenReissueUrl := by
    intro w hw
    simp only [List.mem_singleton] at hw
    subst hw
    decide
  have h := queue_drain_on_success_amended exCfg false (some ⟨"a", "r"⟩)
    (fun _ _ => .ok ⟨"n", "m"⟩) (.ok ()) true true exTransport
    ⟨0, some "/trigger", true⟩ [⟨1, some "/other", true⟩] (some ⟨"a", "r"⟩) 200
    rfl rfl hurl (by simp)
  have h2 := h.2.2 (.code 7) rfl
  exact ⟨h2.2.2.1 ⟨1, some "/other", true⟩ (by simp) (.code 7) rfl, h2.1⟩

/-- C3: if the renewal call fails with error `e`, every queued waiter is
rejected with `e`, the renewal-failed callback is invoked if configured,
the triggering request is rejected with `e` (the renewal error, not the
original expiry error), and the queue ends empty. -/
theorem queue_drain_on_failure (cfg : TokenRefreshConfig) (isUseCookie : Bool)
    (fetch : Option TokenPair) (post : String → TokenPair → Except Err TokenPair)
    (postCookie : Except Err Unit) (hasS hasF : Bool)
    (transport : ReqDescriptor → Except Err Resp)
    (original : ReqDescriptor) (queue : List ReqDescriptor) (e : Err)
    (hA : reissueStepResult cfg isUseCookie fetch post postCookie hasS = .error e) :
    (runRenewal cfg isUseCookie fetch post postCookie hasS hasF transport original queue).triggerOutcome = .rejected e ∧
    (runRenewal cfg isUseCookie fetch post postCookie hasS hasF transport original queue).settleCalls =
      queue.map (fun w => (w.id, .rejected e)) ∧
    (runRenewal cfg isUseCookie fetch post postCookie hasS hasF transport original queue).failureCallbackInvoked = hasF ∧
    (runRenewal cfg isUseCookie fetch post postCookie hasS hasF transport original queue).finalQueue = [] := by
  simp [runRenewal, hA, processQueue]

/-- Witness for C3: a failing storage-mode reissue (error 9) rejects the
queued waiter and the trigger with error 9 and fires the failure
callback. -/
theorem queue_drain_on_failure_witness :
    (runRenewal exCfg false (some ⟨"a", "r"⟩) (fun _ _ => .error (.code 9)) (.ok ())
      true true exTransport ⟨0, some "/t", true⟩ [⟨1, some "/w", true⟩]).triggerOutcome =
      .rejected (.code 9) ∧
    (runRenewal exCfg false (some ⟨"a", "r"⟩) (fun _ _ => .error (.code 9)) (.ok ())
      true true exTransport ⟨0, some "/t", true⟩ [⟨1, some "/w", true⟩]).settleCalls =
      [(1, .rejected (.code 9))] ∧
    (runRenewal exCfg false (some ⟨"a", "r"⟩) (fun _ _ => .error (.code 9)) (.ok ())
      true true exTransport ⟨0, some "/t", true⟩ [⟨1, some "/w", true⟩]).failureCallbackInvoked = true ∧
    (runRenewal exCfg false (some ⟨"a", "r"⟩) (fun _ _ => .error (.code 9)) (.ok ())
      true true exTransport ⟨0, some "/t", true⟩ [⟨1, some "/w", true⟩]).finalQueue = [] := by
  have h := queue_drain_on_failure exCfg false (some ⟨"a", "r"⟩)
    (fun _ _ => .error (.code 9)) (.ok ()) true true exTransport
    ⟨0, some "/t", true⟩ [⟨1, some "/w", true⟩] (.code 9) rfl
  exact ⟨h.1, h.2.1, h.2.2.1, h.2.2.2⟩

/-- C4 counterexample: a success drain in which the sole waiter's replay
fails leaves `failedQueue` unchanged — the clearing assignment after the
`await Promise.all` is skipped when the `Promise.all` rejects — and that
waiter is not settled by this drain, refuting "after every drain the
queue is cleared unconditionally, even if individual replays failed". -/
theorem queue_cleared_counterexample :
    (processQueue ⟨fun _ => true, "https://api.example/auth/reissue", none⟩
        (fun _ => .error (.code 5)) none [⟨1, some "/a", true⟩]).queue =
      [⟨1, some "/a", true⟩] ∧
    ¬(processQueue ⟨fun _ => true, "https://api.example/auth/reissue", none⟩
        (fun _ => .error (.code 5)) none [⟨1, some "/a", true⟩]).queue = [] ∧
    firstSettle (processQueue ⟨fun _ => true, "https://api.example/auth/reissue", none⟩
        (fun _ => .error (.code 5)) none [⟨1, some "/a", true⟩]).settleCalls 1 = none := by
  refine ⟨rfl, by decide, rfl⟩

/-- C4 (amended): `processQueue` clears the queue whenever its
`Promise.all` does not reject — always on an error drain, and on a
success drain in which every (non-reissue-endpoint) waiter's replay
succeeds.  When a replay fails the queue survives that call, but the
renewal handler's catch drains again with the error and every exit of
the renewal section leaves an empty queue with `renewing = false`;
moreover waiters are only ever enqueued while `renewing = true`, so
each independent renewal cycle starts from an empty queue. -/
theorem queue_cleared_amended (cfg : TokenRefreshConfig)
    (t : ReqDescriptor → Except Err Resp) :
    (∀ e q, (processQueue cfg t (some e) q).queue = []) ∧
    (∀ q, (∀ w ∈ q, w.url = some cfg.tokenReissueUrl ∨ ∃ r, t w = .ok r) →
      (processQueue cfg t none q).queue = []) ∧
    (∀ (isUseCookie : Bool) (fetch : Option TokenPair)
      (post : String → TokenPair → Except Err TokenPair) (postCookie : Except Err Unit)
      (hasS hasF : Bool) (original : ReqDescriptor) (queue : List ReqDescriptor),
      (runRenewal cfg isUseCookie fetch post postCookie hasS hasF t original queue).finalQueue = [] ∧
      (runRenewal cfg isUseCookie fetch post postCookie hasS hasF t original queue).finalRefreshing = false) ∧
    (∀ (s : CoordState) (f : Failure),
      (handleTokenRefreshSync cfg s f).1 = .enqueue → s.isRefreshingToken = true) := by
  refine ⟨fun e q => pq_err_clears cfg t e q, fun q h => pq_ok_clears cfg t q h,
    fun isUseCookie fetch post postCookie hasS hasF original queue =>
      runRenewal_ends_clean cfg isUseCookie fetch post postCookie hasS hasF t original queue,
    ?_⟩
  intro s f h
  cases hsr : s.isRefreshingToken
  · exfalso
    cases hc : f.config with
    | none => simp [handleTokenRefreshSync, hc] at h
    | some d =>
      by_cases hcls : cfg.checkTokenExpiredError f.err && !d.retry
      · simp [handleTokenRefreshSync, hc, hcls, hsr] at h
      · simp [handleTokenRefreshSync, hc, hcls] at h
  · rfl

/-- Witness for amended C4: both drain forms clear the queue when no
replay fails. -/
theorem queue_cleared_amended_witness :
    (processQueue exCfg (fun _ => .ok 200) (some (.code 3)) [⟨1, some "/w", true⟩]).queue = [] ∧
    (processQueue exCfg (fun _ => .ok 200) none [⟨1, some "/w", true⟩]).queue = [] := by
  refine ⟨(queue_cleared_amended exCfg (fun _ => .ok 200)).1 (.code 3) _,
    (queue_cleared_amended exCfg (fun _ => .ok 200)).2.1 _ ?_⟩
  intro w _
  exact Or.inr ⟨200, rfl⟩

/-- C5: in storage mode the renewal fetches the current credentials and
passes them to the reissue endpoint, and `tokenReissueWhenUseStorage`
returns the newly issued pair — but the success callback is invoked
with the previously fetched (stale) tokens, not the new ones: the
handler discards the reissue response and passes
`result?.accessToken ?? ""` / `result?.refreshToken ?? ""` from the
pre-renewal fetch (source lines 267–282). -/
theorem storage_reissue_callback_stale_tokens :
    tokenReissueWhenUseStorage (fun _ _ => .ok ⟨"newA", "newR"⟩)
      "https://api.example/auth/reissue" "oldA" "oldR" = .ok ⟨"newA", "newR"⟩ ∧
    (runRenewal exCfg false (some ⟨"oldA", "oldR"⟩) (fun _ _ => .ok ⟨"newA", "newR"⟩)
      (.ok ()) true true (fun _ => .ok 200) ⟨0, some "/d", true⟩ []).successCallbackArgs =
      some ⟨"oldA", "oldR"⟩ ∧
    ¬(runRenewal exCfg false (some ⟨"oldA", "oldR"⟩) (fun _ _ => .ok ⟨"newA", "newR"⟩)
      (.ok ()) true true (fun _ => .ok 200) ⟨0, some "/d", true⟩ []).successCallbackArgs =
      some ⟨"newA", "newR"⟩ := by
  refine ⟨rfl, rfl, by decide⟩

/-- C6: a failure classified auth-expired whose descriptor is already
marked retried is rejected with the original error unchanged and leaves
the coordinator state untouched — no renewal is started and nothing is
enqueued. -/
theorem no_double_retry (cfg : TokenRefreshConfig) (s : CoordState)
    (d : ReqDescriptor) (e : Err)
    (hexp : cfg.checkTokenExpiredError e = true) (hretry : d.retry = true) :
    handleTokenRefreshSync cfg s ⟨some d, e⟩ = (.rejectOriginal e, s) := by
  simp [handleTokenRefreshSync, hexp, hretry]

/-- Witness for C6: a retried request failing again with 401 is rejected
with its own error and the state is unchanged. -/
theorem no_double_retry_witness :
    handleTokenRefreshSync exCfg ⟨true, []⟩ ⟨some ⟨5, some "/x", true⟩, .code 401⟩ =
      (.rejectOriginal (.code 401), ⟨true, []⟩) :=
  no_double_retry exCfg ⟨true, []⟩ ⟨5, some "/x", true⟩ (.code 401) rfl rfl

/-- C7: (a) a failing request whose URL contains the reissue URL is
never enqueued while a renewal is in flight — its dispatch step is
`startRenewal` and the queue is unchanged; (b) in a drain with no
error, a queued waiter whose URL equals the reissue URL is discarded
silently: no settlement is recorded for it and no request with its
identity is replayed through the transport. -/
theorem renewal_exemption (cfg : TokenRefreshConfig) :
    (∀ (s : CoordState) (d : ReqDescriptor) (e : Err),
      s.isRefreshingToken = true → cfg.checkTokenExpiredError e = true →
      d.retry = false → urlIncludesReissue cfg d.url = true →
      (handleTokenRefreshSync cfg s ⟨some d, e⟩).1 = .startRenewal ∧
      (handleTokenRefreshSync cfg s ⟨some d, e⟩).2.failedQueue = s.failedQueue) ∧
    (∀ (t : ReqDescriptor → Except Err Resp) (q : List ReqDescriptor) (w : ReqDescriptor),
      w ∈ q → w.url = some cfg.tokenReissueUrl →
      (∀ w' ∈ q, w'.id = w.id → w'.url = some cfg.tokenReissueUrl) →
      firstSettle (processQueue cfg t none q).settleCalls w.id = none ∧
      ∀ rr ∈ (processQueue cfg t none q).replays, rr.id ≠ w.id) := by
  constructor
  · intro s d e h1 hexp hretry hurl
    constructor <;> simp [handleTokenRefreshSync, h1, hexp, hretry, hurl]
  · intro t q w _hmem _hwurl hall
    exact drain_discards_reissue_waiter cfg t q w hall

/-- Witness for C7: with a renewal in flight, a failing reissue call
dispatches to `startRenewal` (not `enqueue`), and a queued reissue-URL
waiter receives no settlement from a success drain. -/
theorem renewal_exemption_witness :
    (handleTokenRefreshSync exCfg ⟨true, []⟩
      ⟨some ⟨3, some "https://api.example/auth/reissue", false⟩, .code 401⟩).1 =
      .startRenewal ∧
    firstSettle (processQueue exCfg (fun _ => .ok 200) none
      [⟨2, some "https://api.example/auth/reissue", true⟩]).settleCalls 2 = none := by
  have h := renewal_exemption exCfg
  refine ⟨(h.1 ⟨true, []⟩ ⟨3, some "https://api.example/auth/reissue", false⟩
    (.code 401) rfl rfl rfl rfl).1, ?_⟩
  have hall : ∀ w' ∈ [(⟨2, some "https://api.example/auth/reissue", true⟩ : ReqDescriptor)],
      w'.id = 2 → w'.url = some exCfg.tokenReissueUrl := by
    intro w' hw' _
    simp only [List.mem_singleton] at hw'
    subst hw'
    rfl
  exact (h.2 (fun _ => .ok 200) [⟨2, some "https://api.example/auth/reissue", true⟩]
    ⟨2, some "https://api.example/auth/reissue", true⟩ (by simp) rfl hall).1

/-- C8: the marker validation in `checkEncryptionConfigParams` is dead
code — the source tests `!str && str.includes("/")`, which no string
satisfies — so a config whose marker contains the path separator, and
one whose marker is empty, are both accepted (no throw), contradicting
the claim that construction fails fast on an invalid marker.  (The
missing-transform checks do throw; only the marker check is broken, as
the source's own error message and the spec's §9 note indicate.) -/
theorem encryption_marker_validation_dead :
    checkEncryptionConfigParams ⟨"a/b", true, true⟩ = .ok () ∧
    checkEncryptionConfigParams ⟨"", true, true⟩ = .ok () ∧
    checkEncryptionConfigParams ⟨"", true, false⟩ = .error .missingResponseInterceptor ∧
    checkEncryptionConfigParams ⟨"", false, true⟩ = .error .missingRequestInterceptor :=
  ⟨rfl, rfl, rfl, rfl⟩

/-- C9: `checkUserIsIncludeEncryptUrl` returns `true` iff the URL is a
non-empty string containing the configured marker; a `null`/`undefined`
or empty URL takes the error-log branch and returns `false`. -/
theorem encrypt_url_classification (c : EncryptionConfig) (url : Option String) :
    ((checkUserIsIncludeEncryptUrl (some c) url).1 = true ↔
      ∃ u, url = some u ∧ u ≠ "" ∧ strIncludes u c.encryptUrlStr = true) ∧
    ((url = none ∨ url = some "") →
      checkUserIsIncludeEncryptUrl (some c) url = (false, true)) := by
  constructor
  · cases url with
    | none => simp [checkUserIsIncludeEncryptUrl]
    | some u =>
      by_cases h : u = "" <;> simp [checkUserIsIncludeEncryptUrl, h]
  · rintro (rfl | rfl) <;> simp [checkUserIsIncludeEncryptUrl]

/-- Witness for C9: a URL containing the marker `/s/` classifies as
encrypted; an absent URL logs and returns `false`. -/
theorem encrypt_url_classification_witness :
    (checkUserIsIncludeEncryptUrl (some ⟨"/s/", true, true⟩) (some "/api/s/pay")).1 = true ∧
    checkUserIsIncludeEncryptUrl (some ⟨"/s/", true, true⟩) none = (false, true) := by
  refine ⟨(encrypt_url_classification ⟨"/s/", true, true⟩ (some "/api/s/pay")).1.mpr
      ⟨"/api/s/pay", rfl, by decide, by decide⟩,
    (encrypt_url_classification ⟨"/s/", true, true⟩ none).2 (Or.inl rfl)⟩

/-- C10: in storage mode (`isUseCookie = false`) the interceptor sets an
`Authorization` header exactly when the credential fetch returned a
token object with a non-empty `accessToken`, in which case the header
is `"Bearer " ++ accessToken`; otherwise the request goes out with no
`Authorization` header (the function is total — no error is raised). -/
theorem authorization_header_attachment (fetchResult : Option TokenPair) :
    ((setAuthorizationHeader false fetchResult ⟨none⟩).authorization ≠ none ↔
      ∃ t, fetchResult = some t ∧ t.accessToken ≠ "") ∧
    (∀ t, fetchResult = some t → t.accessToken ≠ "" →
      (setAuthorizationHeader false fetchResult ⟨none⟩).authorization =
        some ("Bearer " ++ t.accessToken)) := by
  constructor
  · cases fetchResult with
    | none => simp [setAuthorizationHeader]
    | some t =>
      by_cases h : t.accessToken = "" <;> simp [setAuthorizationHeader, h]
  · rintro t rfl h
    simp [setAuthorizationHeader, h]

/-- Witness for C10: a non-empty access token produces the bearer
header; an empty one leaves the headers untouched. -/
theorem authorization_header_attachment_witness :
    (setAuthorizationHeader false (some ⟨"tok", "ref"⟩) ⟨none⟩).authorization =
      some "Bearer tok" ∧
    (setAuthorizationHeader false (some ⟨"", "ref"⟩) ⟨none⟩).authorization = none :=
  ⟨(authorization_header_attachment (some ⟨"tok", "ref"⟩)).2 ⟨"tok", "ref"⟩ rfl
    (by decide), rfl⟩

end RemoteRequest


